import Mathlib

/-!
Verification development for the devevents repository.

The definitions below are a shallow embedding of the two source files:
* src/database/event.model.ts — the Event schema pre-save hook
  (slug generation from title, date normalization, time validation);
* src/app/api/events/[slug]/route.ts — the GET handler for
  /api/events/[slug] (slug validation, database connection helper,
  query, and error mapping).

Strings are modelled as `List Char`.  The JavaScript string operations
used by the source (toLowerCase, trim, the three regex replaces, the
time regex test, String.includes) are embedded as executable functions
on `List Char`, restricted to the ECMAScript-specified behavior.
-/

deriving instance DecidableEq for Except

namespace DevEvents

/-! ## JavaScript character classes (ECMAScript `\w`, `\s`, ASCII case) -/

/-- ECMAScript WhiteSpace ∪ LineTerminator, the class matched by `\s`
and removed by `String.prototype.trim`. -/
def isJsWs (c : Char) : Bool :=
  let n := c.toNat
  n = 9 || n = 10 || n = 11 || n = 12 || n = 13 || n = 32 || n = 160 ||
  n = 5760 || (8192 ≤ n && n ≤ 8202) || n = 8232 || n = 8233 ||
  n = 8239 || n = 8287 || n = 12288 || n = 65279

/-- ECMAScript `\w`: ASCII letters, digits and underscore. -/
def isWordChar (c : Char) : Bool :=
  let n := c.toNat
  (65 ≤ n && n ≤ 90) || (97 ≤ n && n ≤ 122) || (48 ≤ n && n ≤ 57) || n = 95

/-- ASCII uppercase letter test. -/
def isUpperAscii (c : Char) : Bool :=
  65 ≤ c.toNat && c.toNat ≤ 90

/-- ASCII case mapping of `String.prototype.toLowerCase`, applied
per character (the runtime and this model agree on the Basic Latin
range, which is all that survives the `\w`-based filter below). -/
def asciiToLower (c : Char) : Char :=
  if 65 ≤ c.toNat ∧ c.toNat ≤ 90 then Char.ofNat (c.toNat + 32) else c

/-- `String.prototype.trim`: drop leading and trailing whitespace. -/
def jsTrim (l : List Char) : List Char :=
  (((l.dropWhile isJsWs).reverse).dropWhile isJsWs).reverse

/-! ## The slug transform (event.model.ts lines 111–117)

`this.title.toLowerCase().trim()
  .replace(/[^\w\s-]/g, '')
  .replace(/\s+/g, '-')
  .replace(--+ ↦ -)
  .replace(/^-+|-+$/g, '')` -/

/-- Global `replace(/[^\w\s-]/g, '')`: keep word chars, whitespace
and hyphens, drop the rest. -/
def stripSpecials (l : List Char) : List Char :=
  l.filter (fun c => isWordChar c || isJsWs c || c = '-')

/-- Worker for `replace(/\s+/g, '-')`: the flag records whether the
previous character belonged to a whitespace run already replaced. -/
def wsToHyphensAux : Bool → List Char → List Char
  | _, [] => []
  | inRun, c :: rest =>
    if isJsWs c then
      if inRun then wsToHyphensAux true rest
      else '-' :: wsToHyphensAux true rest
    else c :: wsToHyphensAux false rest

/-- Global `replace(/\s+/g, '-')`: each maximal whitespace run becomes
a single hyphen. -/
def wsToHyphens (l : List Char) : List Char :=
  wsToHyphensAux false l

/-- Worker for the global replace of `--+` by `-`: the flag records whether the
previous character of the output position was a hyphen. -/
def collapseHyphensAux : Bool → List Char → List Char
  | _, [] => []
  | prevHy, c :: rest =>
    if c = '-' then
      if prevHy then collapseHyphensAux true rest
      else '-' :: collapseHyphensAux true rest
    else c :: collapseHyphensAux false rest

/-- Global replace of `--+` by `-`: every run of hyphens collapses to a
single hyphen (runs of length one are left as they are, so the net
effect on any hyphen run is a single hyphen). -/
def collapseHyphens (l : List Char) : List Char :=
  collapseHyphensAux false l

/-- Global `replace(/^-+|-+$/g, '')`: drop leading and trailing
hyphen runs. -/
def stripEdgeHyphens (l : List Char) : List Char :=
  (((l.dropWhile (fun c => c = '-')).reverse).dropWhile (fun c => c = '-')).reverse

/-- The complete slug derivation of the pre-save hook
(event.model.ts lines 111–117). -/
def slugify (t : List Char) : List Char :=
  stripEdgeHyphens (collapseHyphens (wsToHyphens (stripSpecials (jsTrim (t.map asciiToLower)))))

/-! ## Dates

The hook runs `new Date(this.date)` and, when the result is a valid
date, stores `dateObj.toISOString().split('T')[0]`.  The `Date`
machinery is external runtime code; it is modelled here on the
ECMAScript Date Time String Format: a date part `YYYY`, `YYYY-MM` or
`YYYY-MM-DD` (absent month/day default to 01), optionally followed by
`T` `HH:MM`, optional `:SS` and `.sss`, and an optional UTC offset
`Z` or `±HH:MM`.  Date-only forms are UTC; date-times carry their
offset.  A date-time without an offset is host-local time per the
spec; the model fixes a UTC host, so such forms read as offset 0.
Expanded ±YYYYYY years and the implementation-specific legacy
fallback formats engines layer on top of the spec are outside the
model.  `toISOString().split('T')[0]` is the `YYYY-MM-DD` rendering
of the UTC calendar date of the parsed instant, which for offset
date-times can be the day before or after the written date. -/

/-- ASCII digit test. -/
def isDigitCh (c : Char) : Bool :=
  48 ≤ c.toNat && c.toNat ≤ 57

/-- Numeric value of an ASCII digit character. -/
def digitVal (c : Char) : Nat := c.toNat - 48

/-- Gregorian leap-year rule used by the ECMAScript calendar. -/
def isLeapYear (y : Nat) : Bool :=
  (y % 4 = 0 && y % 100 ≠ 0) || y % 400 = 0

/-- Days in a month of the proleptic Gregorian calendar. -/
def daysInMonth (y m : Nat) : Nat :=
  match m with
  | 1 => 31
  | 2 => if isLeapYear y then 29 else 28
  | 3 => 31
  | 4 => 30
  | 5 => 31
  | 6 => 30
  | 7 => 31
  | 8 => 31
  | 9 => 30
  | 10 => 31
  | 11 => 30
  | 12 => 31
  | _ => 0

/-- The date part of the Date Time String Format: `YYYY`, `YYYY-MM`
or `YYYY-MM-DD`, absent month and day defaulting to 1.  Returns the
three fields and the unconsumed remainder of the string. -/
def parseYMD : List Char → Option (Nat × Nat × Nat × List Char)
  | y1 :: y2 :: y3 :: y4 :: rest =>
    if isDigitCh y1 && isDigitCh y2 && isDigitCh y3 && isDigitCh y4 then
      match rest with
      | '-' :: m1 :: m2 :: rest2 =>
        if isDigitCh m1 && isDigitCh m2 then
          match rest2 with
          | '-' :: d1 :: d2 :: rest3 =>
            if isDigitCh d1 && isDigitCh d2 then
              some (((digitVal y1 * 10 + digitVal y2) * 10 + digitVal y3) * 10 + digitVal y4,
                digitVal m1 * 10 + digitVal m2, digitVal d1 * 10 + digitVal d2, rest3)
            else none
          | _ =>
            some (((digitVal y1 * 10 + digitVal y2) * 10 + digitVal y3) * 10 + digitVal y4,
              digitVal m1 * 10 + digitVal m2, 1, rest2)
        else none
      | _ =>
        some (((digitVal y1 * 10 + digitVal y2) * 10 + digitVal y3) * 10 + digitVal y4, 1, 1, rest)
    else none
  | _ => none

/-- The optional `:SS` / `:SS.sss` fragment of the time part: returns
its value in milliseconds together with the unconsumed remainder; a
fragment that is absent or malformed contributes nothing and leaves
the input for the offset grammar to reject. -/
def parseSecFrag : List Char → Nat × List Char
  | ':' :: s1 :: s2 :: rest =>
    if isDigitCh s1 && isDigitCh s2 && decide (digitVal s1 * 10 + digitVal s2 ≤ 59) then
      match rest with
      | '.' :: f1 :: f2 :: f3 :: rest2 =>
        if isDigitCh f1 && isDigitCh f2 && isDigitCh f3 then
          ((digitVal s1 * 10 + digitVal s2) * 1000 +
            (digitVal f1 * 100 + digitVal f2 * 10 + digitVal f3), rest2)
        else (0, ':' :: s1 :: s2 :: rest)
      | _ => ((digitVal s1 * 10 + digitVal s2) * 1000, rest)
    else (0, ':' :: s1 :: s2 :: rest)
  | l => (0, l)

/-- The UTC offset suffix of the Date Time String Format: `Z` or
`±HH:MM`, as signed milliseconds. -/
def parseOffset : List Char → Option Int
  | ['Z'] => some 0
  | [sgn, o1, o2, ':', o3, o4] =>
    if (sgn = '+' || sgn = '-') && isDigitCh o1 && isDigitCh o2 &&
       isDigitCh o3 && isDigitCh o4 then
      if digitVal o1 * 10 + digitVal o2 ≤ 23 ∧ digitVal o3 * 10 + digitVal o4 ≤ 59 then
        if sgn = '-' then
          some (-(((digitVal o1 * 10 + digitVal o2) * 3600000 +
            (digitVal o3 * 10 + digitVal o4) * 60000 : Nat) : Int))
        else
          some ((((digitVal o1 * 10 + digitVal o2) * 3600000 +
            (digitVal o3 * 10 + digitVal o4) * 60000 : Nat) : Int))
      else none
    else none
  | _ => none

/-- The time part after `T`: `HH:MM` with the optional seconds
fragment and the optional offset (an absent offset is host-local
time, read as 0 under the UTC-host model).  Returns milliseconds
within the day (`24:00` is allowed exactly at zero
minutes/seconds/millis) and the offset in milliseconds. -/
def parseTimeOffset : List Char → Option (Nat × Int)
  | h1 :: h2 :: ':' :: mi1 :: mi2 :: rest =>
    if isDigitCh h1 && isDigitCh h2 && isDigitCh mi1 && isDigitCh mi2 then
      match parseSecFrag rest with
      | (secMs, rest2) =>
        match (match rest2 with | [] => some 0 | _ => parseOffset rest2) with
        | none => none
        | some oms =>
          if (digitVal h1 * 10 + digitVal h2 ≤ 23 ∧ digitVal mi1 * 10 + digitVal mi2 ≤ 59)
             ∨ (digitVal h1 * 10 + digitVal h2 = 24 ∧ digitVal mi1 * 10 + digitVal mi2 = 0 ∧
                secMs = 0) then
            some ((digitVal h1 * 10 + digitVal h2) * 3600000 +
              (digitVal mi1 * 10 + digitVal mi2) * 60000 + secMs, oms)
          else none
    else none
  | _ => none

/-- A parsed date-time string: the written calendar date, the time of
day in milliseconds (0 for date-only forms) and the UTC offset in
milliseconds (0 for date-only forms, `Z`, and — under the UTC-host
model — offset-less date-times). -/
structure JsDateParts where
  year : Nat
  month : Nat
  day : Nat
  timeMs : Nat
  offsetMs : Int
deriving DecidableEq

/-- Modelled external runtime: `new Date(s)` followed by the
`isNaN(dateObj.getTime())` validity test, on the Date Time String
Format fragment described above.  Out-of-range month or day values
yield an Invalid Date per the spec, hence `none`. -/
def jsDateParse (s : List Char) : Option JsDateParts :=
  match parseYMD s with
  | none => none
  | some (y, mo, d, rest) =>
    if 1 ≤ mo ∧ mo ≤ 12 ∧ 1 ≤ d ∧ d ≤ daysInMonth y mo then
      match rest with
      | [] => some ⟨y, mo, d, 0, 0⟩
      | 'T' :: restT =>
        match parseTimeOffset restT with
        | none => none
        | some (tms, oms) => some ⟨y, mo, d, tms, oms⟩
      | _ => none
    else none

/-- The calendar day before `(y, mo, d)` (year as an integer: the day
before 0000-01-01 lies in year −1). -/
def prevCalDay (y mo d : Nat) : Int × Nat × Nat :=
  if 2 ≤ d then ((y : Int), mo, d - 1)
  else if 2 ≤ mo then ((y : Int), mo - 1, daysInMonth y (mo - 1))
  else ((y : Int) - 1, 12, 31)

/-- The calendar day after `(y, mo, d)`. -/
def nextCalDay (y mo d : Nat) : Int × Nat × Nat :=
  if d < daysInMonth y mo then ((y : Int), mo, d + 1)
  else if mo < 12 then ((y : Int), mo + 1, 1)
  else ((y : Int) + 1, 1, 1)

/-- The UTC calendar date of the parsed instant: the written date
shifted by one day when the time of day minus the offset leaves the
day (with `timeMs ≤ 24h` and `|offsetMs| < 24h` the shift is at most
one day in either direction). -/
def utcDateOf (p : JsDateParts) : Int × Nat × Nat :=
  if (p.timeMs : Int) - p.offsetMs < 0 then prevCalDay p.year p.month p.day
  else if 86400000 ≤ (p.timeMs : Int) - p.offsetMs then nextCalDay p.year p.month p.day
  else ((p.year : Int), p.month, p.day)

/-- Decimal digit character of `n % 10`. -/
def digitCh (n : Nat) : Char := Char.ofNat (48 + n % 10)

/-- Two-digit zero-padded decimal rendering. -/
def pad2L (n : Nat) : List Char := [digitCh (n / 10), digitCh n]

/-- Four-digit zero-padded decimal rendering. -/
def pad4L (n : Nat) : List Char := [digitCh (n / 1000), digitCh (n / 100), digitCh (n / 10), digitCh n]

/-- Six-digit zero-padded decimal rendering (expanded years). -/
def pad6L (n : Nat) : List Char :=
  [digitCh (n / 100000), digitCh (n / 10000), digitCh (n / 1000), digitCh (n / 100),
   digitCh (n / 10), digitCh n]

/-- Modelled external runtime: `dateObj.toISOString().split('T')[0]`
— the `YYYY-MM-DD` rendering of a UTC calendar date, with the
expanded `±YYYYYY` year form outside 0000–9999. -/
def toISODateString : Int × Nat × Nat → List Char
  | (y, mo, d) =>
    (if 0 ≤ y ∧ y ≤ 9999 then pad4L y.toNat
     else if y < 0 then '-' :: pad6L (-y).toNat
     else '+' :: pad6L y.toNat) ++ '-' :: (pad2L mo ++ '-' :: pad2L d)

/-! ## Time validation

`const timeRegex = /^([0-1]?[0-9]|2[0-3]):[0-5][0-9]$/` -/

/-- `timeRegex.test` (event.model.ts line 132): a one- or two-digit
hour `0–23` per the alternation `[0-1]?[0-9]|2[0-3]`, a colon, then
minutes `[0-5][0-9]`. -/
def isTimeHHMM (s : List Char) : Bool :=
  match s with
  | [h, c, m1, m2] =>
    c = ':' && isDigitCh h && (48 ≤ m1.toNat && m1.toNat ≤ 53) && isDigitCh m2
  | [h1, h2, c, m1, m2] =>
    c = ':' &&
    (((h1 = '0' || h1 = '1') && isDigitCh h2) || (h1 = '2' && (48 ≤ h2.toNat && h2.toNat ≤ 51))) &&
    (48 ≤ m1.toNat && m1.toNat ≤ 53) && isDigitCh m2
  | _ => false

/-! ## The Event document and the pre-save hook (event.model.ts 108–139) -/

/-- The fields of an Event document that the pre-save hook reads or
writes.  The remaining schema fields (description, venue, …) are
never touched by the hook and are omitted. -/
structure EventDoc where
  title : List Char
  slug : List Char
  date : List Char
  time : List Char
deriving DecidableEq

/-- `this.isModified(f)` for the three fields the hook inspects. -/
structure ModifiedFlags where
  title : Bool
  date : Bool
  time : Bool
deriving DecidableEq

/-- Lines 110–118: if the title is modified, overwrite `slug` with the
derived slug; otherwise leave the document alone. -/
def titleStep (m : ModifiedFlags) (doc : EventDoc) : EventDoc :=
  if m.title then { doc with slug := slugify doc.title } else doc

/-- Lines 121–128: if the date is modified, parse it; an unparsable
date aborts via `next(new Error('Invalid date format'))`, a parsable
one is rewritten in place as the `YYYY-MM-DD` date part of its
`toISOString` rendering. -/
def dateStep (m : ModifiedFlags) (doc : EventDoc) : Except (List Char) EventDoc :=
  if m.date then
    match jsDateParse doc.date with
    | none => .error "Invalid date format".toList
    | some p => .ok { doc with date := toISODateString (utcDateOf p) }
  else .ok doc

/-- Lines 131–136: if the time is modified, test it against the
24-hour regex; a failing string aborts via
`next(new Error('Time must be in HH:MM format'))`; a passing string is
left verbatim. -/
def timeStep (m : ModifiedFlags) (doc : EventDoc) : Except (List Char) EventDoc :=
  if m.time then
    if isTimeHHMM doc.time then .ok doc
    else .error "Time must be in HH:MM format".toList
  else .ok doc

/-- The whole pre-save hook (lines 108–139): the three blocks run in
order, the first `next(error)` aborting the save.  `.error msg` models
an aborted write (the document is not persisted), `.ok doc` models the
mutated document reaching persistence. -/
def preSave (m : ModifiedFlags) (doc : EventDoc) : Except (List Char) EventDoc :=
  (dateStep m (titleStep m doc)).bind (timeStep m)

/-! ## The GET handler (route.ts)

Thrown JavaScript values, the process-wide connection state, the
database connection helper, and the handler body with its catch-block
error mapping. -/

/-- A thrown JavaScript value as inspected by the catch block: either
an `Error` instance with its `name` and `message`, or any non-Error
value (which fails the `instanceof Error` test). -/
inductive Thrown where
  | errObj (name msg : List Char)
  | nonError
deriving DecidableEq

/-- `String.prototype.startsWith` on character lists. -/
def startsWithL : List Char → List Char → Bool
  | [], _ => true
  | _ :: _, [] => false
  | a :: as, b :: bs => a = b && startsWithL as bs

/-- `String.prototype.includes needle hay`: substring containment. -/
def containsSub (needle : List Char) : List Char → Bool
  | [] => needle.isEmpty
  | c :: rest => startsWithL needle (c :: rest) || containsSub needle rest

/-- Process-wide state read by `connectToDatabase`:
`process.env.MONGODB_URI` (absent, or present with a value) and the
truthiness of `global.mongoose?.conn`. -/
structure ProcState where
  mongodbUri : Option (List Char)
  mongooseConn : Bool
deriving DecidableEq

/-- Truthiness of `!process.env.MONGODB_URI`: the variable is missing
or holds the empty string. -/
def uriFalsy (st : ProcState) : Bool :=
  match st.mongodbUri with
  | none => true
  | some u => u.isEmpty

/-- The error thrown at route.ts line 8. -/
def mongoUriError : Thrown :=
  .errObj "Error".toList "MONGODB_URI environment variable is not defined".toList

/-- `connectToDatabase` (route.ts lines 6–17).  The outcome of the
external `connect(process.env.MONGODB_URI)` call is the parameter
`connectRes`; the function itself only adds the configuration check
and the cached-connection check, in that order. -/
def connectToDatabase (st : ProcState) (connectRes : Except Thrown Unit) : Except Thrown Unit :=
  if uriFalsy st then .error mongoUriError
  else if st.mongooseConn then .ok ()
  else connectRes

/-- The slug route parameter as the handler can observe it after
`const ⟨slug⟩ = await params`: absent, present but not a string
(with its truthiness), or a string. -/
inductive SlugParam where
  | missing
  | notAString (truthy : Bool)
  | str (s : List Char)

/-- Outcome of the external `Event.findOne(⟨slug⟩).lean()` call:
a document, no document, or a thrown value. -/
inductive QueryOutcome where
  | found (ev : EventDoc)
  | notFound
  | raise (t : Thrown)
deriving DecidableEq

/-- Body of a `NextResponse.json` reply produced by the handler. -/
inductive RespBody where
  | errorMsg (msg : List Char)
  | success (data : EventDoc)
deriving DecidableEq

/-- An HTTP reply: status code plus JSON body. -/
structure Response where
  status : Nat
  body : RespBody
deriving DecidableEq

/-- `const slugPattern = /^[a-z0-9-]+$/` membership test for one
character. -/
def isSlugPatternChar (c : Char) : Bool :=
  (97 ≤ c.toNat && c.toNat ≤ 122) || (48 ≤ c.toNat && c.toNat ≤ 57) || c = '-'

/-- `slugPattern.test` (route.ts line 48): one or more characters,
all from `[a-z0-9-]`. -/
def slugPatternOk (l : List Char) : Bool :=
  !l.isEmpty && l.all isSlugPatternChar

/-- `slug.trim().toLowerCase()` (route.ts line 45). -/
def sanitizeSlug (s : List Char) : List Char :=
  (jsTrim s).map asciiToLower

/-- The try-block of the handler (route.ts lines 33–73): validation,
connection, query, and the success/not-found replies.  `.error t`
models a value thrown inside the try-block, to be mapped by the catch
block.  The first test mirrors
`!slug || typeof slug !== 'string' || slug.trim() === ''`. -/
def getBody (p : SlugParam) (st : ProcState) (connectRes : Except Thrown Unit)
    (q : List Char → QueryOutcome) : Except Thrown Response :=
  match p with
  | .missing => .ok ⟨400, .errorMsg "Invalid slug parameter".toList⟩
  | .notAString _ => .ok ⟨400, .errorMsg "Invalid slug parameter".toList⟩
  | .str s =>
    if s.isEmpty || (jsTrim s).isEmpty then
      .ok ⟨400, .errorMsg "Invalid slug parameter".toList⟩
    else if !slugPatternOk (sanitizeSlug s) then
      .ok ⟨400, .errorMsg "Slug contains invalid characters".toList⟩
    else
      match connectToDatabase st connectRes with
      | .error t => .error t
      | .ok _ =>
        match q (sanitizeSlug s) with
        | .raise t => .error t
        | .notFound => .ok ⟨404, .errorMsg "Event not found".toList⟩
        | .found ev => .ok ⟨200, .success ev⟩

/-- The catch block (route.ts lines 74–101): the configuration-message
test, then the Mongoose error-name test, then the generic reply. -/
def mapCaught (t : Thrown) : Response :=
  match t with
  | .nonError => ⟨500, .errorMsg "Internal server error".toList⟩
  | .errObj name msg =>
    if containsSub "MONGODB_URI".toList msg then
      ⟨500, .errorMsg "Database configuration error".toList⟩
    else if name = "CastError".toList ∨ name = "ValidationError".toList then
      ⟨400, .errorMsg "Invalid request parameters".toList⟩
    else
      ⟨500, .errorMsg "Internal server error".toList⟩

/-- The complete GET handler: the try-block with every thrown value
routed through the catch block.  Total by construction — every call
produces exactly one `Response`. -/
def GET (p : SlugParam) (st : ProcState) (connectRes : Except Thrown Unit)
    (q : List Char → QueryOutcome) : Response :=
  match getBody p st connectRes q with
  | .ok r => r
  | .error t => mapCaught t

/-! ## Character-class predicates used by the theorems -/

/-- Characters that can actually occur in a derived slug:
`[a-z0-9_-]` (by code points: 97–122, 48–57, 95, 45). -/
def isSlugOutChar (c : Char) : Bool :=
  (97 ≤ c.toNat && c.toNat ≤ 122) || (48 ≤ c.toNat && c.toNat ≤ 57) ||
  c.toNat = 95 || c.toNat = 45

/-- The character class `[a-z0-9-]` named by the specification for
derived slugs (no underscore). -/
def isClaimSlugChar (c : Char) : Bool :=
  (97 ≤ c.toNat && c.toNat ≤ 122) || (48 ≤ c.toNat && c.toNat ≤ 57) || c.toNat = 45

/-- Two adjacent characters are not both hyphens. -/
def hyphenApart (a b : Char) : Prop := ¬(a = '-' ∧ b = '-')

/-! ## Helper lemmas -/

lemma toNat_ofNat_of_lt (n : Nat) (h : n < 55296) : (Char.ofNat n).toNat = n := by
  have hv : n.isValidChar := Or.inl h
  simp [Char.ofNat, hv, Char.toNat, Char.ofNatAux, UInt32.ofNat', UInt32.toNat]

lemma isUpperAscii_asciiToLower (c : Char) : isUpperAscii (asciiToLower c) = false := by
  unfold asciiToLower
  by_cases h : 65 ≤ c.toNat ∧ c.toNat ≤ 90
  · rw [if_pos h]
    have ht : (Char.ofNat (c.toNat + 32)).toNat = c.toNat + 32 :=
      toNat_ofNat_of_lt _ (by omega)
    simp only [isUpperAscii, ht, Bool.and_eq_false_iff, decide_eq_false_iff_not]
    omega
  · rw [if_neg h]
    simp only [isUpperAscii, Bool.and_eq_false_iff, decide_eq_false_iff_not]
    omega

lemma mem_of_mem_dropWhile {α} {p : α → Bool} {c : α} :
    ∀ {l : List α}, c ∈ l.dropWhile p → c ∈ l
  | [], h => by simp at h
  | a :: rest, h => by
    rw [List.dropWhile_cons] at h
    split at h
    · exact List.mem_cons_of_mem _ (mem_of_mem_dropWhile h)
    · exact h

lemma mem_wsToHyphensAux {c : Char} :
    ∀ (l : List Char) (b : Bool), c ∈ wsToHyphensAux b l →
      c = '-' ∨ (c ∈ l ∧ isJsWs c = false)
  | [], _, h => by simp [wsToHyphensAux] at h
  | a :: rest, b, h => by
    simp only [wsToHyphensAux] at h
    have step : c ∈ wsToHyphensAux true rest ∨ c ∈ wsToHyphensAux false rest →
        c = '-' ∨ (c ∈ a :: rest ∧ isJsWs c = false) := by
      intro h'
      rcases h' with h' | h'
      · exact (mem_wsToHyphensAux rest true h').imp id
          (fun hp => ⟨List.mem_cons_of_mem _ hp.1, hp.2⟩)
      · exact (mem_wsToHyphensAux rest false h').imp id
          (fun hp => ⟨List.mem_cons_of_mem _ hp.1, hp.2⟩)
    by_cases hws : isJsWs a = true
    · rw [if_pos hws] at h
      by_cases hb : b = true
      · rw [if_pos hb] at h
        exact step (Or.inl h)
      · rw [if_neg hb] at h
        rcases List.mem_cons.mp h with hc | h'
        · exact Or.inl hc
        · exact step (Or.inl h')
    · rw [if_neg hws] at h
      rcases List.mem_cons.mp h with hc | h'
      · subst hc
        exact Or.inr ⟨List.mem_cons_self _ _, by simpa using hws⟩
      · exact step (Or.inr h')

lemma mem_collapseHyphensAux {c : Char} :
    ∀ (l : List Char) (b : Bool), c ∈ collapseHyphensAux b l → c ∈ l
  | [], _, h => by simp [collapseHyphensAux] at h
  | a :: rest, b, h => by
    simp only [collapseHyphensAux] at h
    by_cases hhy : a = '-'
    · rw [if_pos hhy] at h
      by_cases hb : b = true
      · rw [if_pos hb] at h
        exact List.mem_cons_of_mem _ (mem_collapseHyphensAux rest true h)
      · rw [if_neg hb] at h
        rcases List.mem_cons.mp h with hc | h'
        · subst hc; rw [hhy]; exact List.mem_cons_self _ _
        · exact List.mem_cons_of_mem _ (mem_collapseHyphensAux rest true h')
    · rw [if_neg hhy] at h
      rcases List.mem_cons.mp h with hc | h'
      · subst hc; exact List.mem_cons_self _ _
      · exact List.mem_cons_of_mem _ (mem_collapseHyphensAux rest false h')

lemma hyphenApart_symm {a b : Char} (h : hyphenApart a b) : hyphenApart b a := by
  intro hc; exact h ⟨hc.2, hc.1⟩

lemma collapseHyphensAux_chain :
    ∀ (l : List Char), (∀ b, List.Chain' hyphenApart (collapseHyphensAux b l)) ∧
      (collapseHyphensAux true l).head? ≠ some '-'
  | [] => by constructor
             · intro b; simp [collapseHyphensAux, List.chain'_nil]
             · simp [collapseHyphensAux]
  | a :: rest => by
    obtain ⟨ih1, ih2⟩ := collapseHyphensAux_chain rest
    by_cases hhy : a = '-'
    · constructor
      · intro b
        simp only [collapseHyphensAux, if_pos hhy]
        by_cases hb : b = true
        · rw [if_pos hb]; exact ih1 true
        · rw [if_neg hb]
          rw [List.chain'_cons']
          refine ⟨?_, ih1 true⟩
          intro y hy
          intro hc
          rw [Option.mem_def] at hy
          rw [hc.2] at hy
          exact ih2 hy
      · simp only [collapseHyphensAux, if_pos hhy, if_pos rfl]
        exact ih2
    · constructor
      · intro b
        simp only [collapseHyphensAux, if_neg hhy]
        rw [List.chain'_cons']
        refine ⟨?_, ih1 false⟩
        intro y hy
        intro hc
        exact hhy hc.1
      · simp only [collapseHyphensAux, if_neg hhy, List.head?_cons]
        intro hc
        exact hhy (by injection hc)

lemma chain'_dropWhile {R : Char → Char → Prop} {p : Char → Bool} :
    ∀ {l : List Char}, List.Chain' R l → List.Chain' R (l.dropWhile p)
  | [], h => by rw [List.dropWhile_nil]; exact h
  | a :: rest, h => by
    rw [List.dropWhile_cons]
    split
    · exact chain'_dropWhile (List.chain'_cons'.mp h).2
    · exact h

lemma head?_dropWhile_not {p : Char → Bool} :
    ∀ {l : List Char} {a : Char}, (l.dropWhile p).head? = some a → p a = false
  | [], a, h => by simp at h
  | c :: rest, a, h => by
    rw [List.dropWhile_cons] at h
    split at h
    · exact head?_dropWhile_not h
    · next hp =>
      rw [List.head?_cons] at h
      injection h with h
      subst h
      exact Bool.not_eq_true _ ▸ eq_false_of_ne_true hp

lemma getLast?_dropWhile_cases {p : Char → Bool} :
    ∀ (l : List Char), (l.dropWhile p).getLast? = l.getLast? ∨ l.dropWhile p = []
  | [] => Or.inr rfl
  | a :: rest => by
    rw [List.dropWhile_cons]
    split
    · rcases getLast?_dropWhile_cases (p := p) rest with h | h
      · cases rest with
        | nil => right; rw [List.dropWhile_nil]
        | cons b rs => left; rw [h, List.getLast?_cons_cons]
      · right; exact h
    · left; rfl

/-! ## C1 -/

/-- C1 (amended): for every title, the slug derived by the pre-save
normalization contains only characters from `[a-z0-9_-]` (underscores
are word characters, so the `[^\w\s-]` removal keeps them), and has no
leading, trailing, or doubled hyphens. -/
theorem slugify_charset_and_hyphens (t : List Char) :
    (∀ c ∈ slugify t, isSlugOutChar c = true) ∧
    List.Chain' hyphenApart (slugify t) ∧
    (slugify t).head? ≠ some '-' ∧
    (slugify t).getLast? ≠ some '-' := by
  have hslug : slugify t =
      ((((collapseHyphens (wsToHyphens (stripSpecials (jsTrim (t.map asciiToLower))))).dropWhile
        (fun c => c = '-')).reverse).dropWhile (fun c => c = '-')).reverse := rfl
  refine ⟨?_, ?_, ?_, ?_⟩
  · intro c hc
    rw [hslug, List.mem_reverse] at hc
    have hc := mem_of_mem_dropWhile hc
    rw [List.mem_reverse] at hc
    have h4 := mem_of_mem_dropWhile hc
    have h3 := mem_collapseHyphensAux _ false h4
    rcases mem_wsToHyphensAux _ false h3 with hdash | ⟨h2, hnw⟩
    · subst hdash; decide
    · rw [stripSpecials, List.mem_filter] at h2
      obtain ⟨h1, hcls⟩ := h2
      have h0 : c ∈ t.map asciiToLower := by
        unfold jsTrim at h1
        rw [List.mem_reverse] at h1
        have h1 := mem_of_mem_dropWhile h1
        rw [List.mem_reverse] at h1
        exact mem_of_mem_dropWhile h1
      obtain ⟨c0, _, hceq⟩ := List.mem_map.mp h0
      have hup : isUpperAscii c = false := hceq ▸ isUpperAscii_asciiToLower c0
      simp only [Bool.or_eq_true, decide_eq_true_eq] at hcls
      rcases hcls with (hw | hws) | hdash
      · simp only [isWordChar, Bool.or_eq_true, Bool.and_eq_true, decide_eq_true_eq] at hw
        simp only [isUpperAscii, Bool.and_eq_false_iff, decide_eq_false_iff_not] at hup
        simp only [isSlugOutChar, Bool.or_eq_true, Bool.and_eq_true, decide_eq_true_eq]
        omega
      · rw [hws] at hnw; exact absurd hnw (by simp)
      · subst hdash; decide
  · rw [hslug]
    have ch4 : List.Chain' hyphenApart
        (collapseHyphens (wsToHyphens (stripSpecials (jsTrim (t.map asciiToLower))))) :=
      (collapseHyphensAux_chain _).1 false
    have ch4' := chain'_dropWhile (p := fun c => c = '-') ch4
    have chr : List.Chain' hyphenApart
        (((collapseHyphens (wsToHyphens (stripSpecials (jsTrim (t.map asciiToLower))))).dropWhile
          (fun c => c = '-')).reverse) :=
      List.chain'_reverse.mpr (ch4'.imp fun a b h => hyphenApart_symm h)
    have chm := chain'_dropWhile (p := fun c => c = '-') chr
    exact List.chain'_reverse.mpr (chm.imp fun a b h => hyphenApart_symm h)
  · rw [hslug, List.head?_reverse]
    rcases getLast?_dropWhile_cases
        (p := fun c => c = '-')
        (((collapseHyphens (wsToHyphens (stripSpecials (jsTrim (t.map asciiToLower))))).dropWhile
          (fun c => c = '-')).reverse) with h | h
    · rw [h, List.getLast?_reverse]
      intro hcon
      have := head?_dropWhile_not hcon
      simp at this
    · rw [h]; simp
  · rw [hslug, List.getLast?_reverse]
    intro hcon
    have := head?_dropWhile_not hcon
    simp at this

/-- C1 (counterexample to the claim as stated): the non-empty title
"a_b" derives the slug "a_b", whose underscore is outside the claimed
class `[a-z0-9-]`. -/
theorem slugify_claim_charset_cex :
    "a_b".toList ≠ ([] : List Char) ∧
    '_' ∈ slugify "a_b".toList ∧ isClaimSlugChar '_' = false := by decide

/-! ## C10 -/

/-- C10: if a modified title reduces to nothing under the slug
transform, the pre-save hook sets `slug` to the empty string; when no
other field is modified the hook completes without error — the write
is not rejected for producing an empty slug. -/
theorem empty_slug_accepted (doc : EventDoc) (m : ModifiedFlags)
    (ht : m.title = true) (he : slugify doc.title = []) :
    titleStep m doc = { doc with slug := [] } ∧
    (m.date = false → m.time = false → preSave m doc = .ok { doc with slug := [] }) := by
  have h1 : titleStep m doc = { doc with slug := [] } := by
    unfold titleStep
    rw [if_pos ht, he]
  refine ⟨h1, ?_⟩
  intro hd htm
  simp [preSave, dateStep, timeStep, h1, hd, htm, Except.bind]

/-- Witness for C10 at the all-punctuation title `"!!!"`. -/
theorem empty_slug_accepted_witness :
    slugify "!!!".toList = ([] : List Char) ∧
    preSave ⟨true, false, false⟩ ⟨"!!!".toList, "old".toList, "2025-01-01".toList, "10:00".toList⟩ =
      .ok ⟨"!!!".toList, [], "2025-01-01".toList, "10:00".toList⟩ :=
  ⟨by decide,
   (empty_slug_accepted ⟨"!!!".toList, "old".toList, "2025-01-01".toList, "10:00".toList⟩
     ⟨true, false, false⟩ rfl (by decide)).2 rfl rfl⟩

/-! ## C5 -/

lemma titleStep_time (m : ModifiedFlags) (doc : EventDoc) :
    (titleStep m doc).time = doc.time := by
  unfold titleStep; split <;> rfl

lemma titleStep_date (m : ModifiedFlags) (doc : EventDoc) :
    (titleStep m doc).date = doc.date := by
  unfold titleStep; split <;> rfl

lemma dateStep_time {m : ModifiedFlags} {doc d₁ : EventDoc}
    (h : dateStep m doc = .ok d₁) : d₁.time = doc.time := by
  unfold dateStep at h
  split at h
  · split at h
    · exact absurd h (by simp)
    · injection h with h
      subst h
      rfl
  · injection h with h
    subst h
    rfl

/-- C5: for every modified time field, a string matching the 24-hour
regex passes through unchanged (the time step returns the document
verbatim, and any successfully saved document keeps the original time
value); any other string makes the time step signal the
"Time must be in HH:MM format" error, the save never succeeds, and,
whenever the date step did not already abort, that time error is the
hook's result. -/
theorem time_validation (doc : EventDoc) (m : ModifiedFlags) (ht : m.time = true) :
    (isTimeHHMM doc.time = true →
       timeStep m doc = .ok doc ∧
       ∀ doc', preSave m doc = .ok doc' → doc'.time = doc.time) ∧
    (isTimeHHMM doc.time = false →
       timeStep m doc = .error "Time must be in HH:MM format".toList ∧
       (∀ doc', preSave m doc ≠ .ok doc') ∧
       (∀ doc₁, dateStep m (titleStep m doc) = .ok doc₁ →
          preSave m doc = .error "Time must be in HH:MM format".toList)) := by
  constructor
  · intro hok
    constructor
    · unfold timeStep
      rw [if_pos ht, if_pos hok]
    · intro doc' hps
      unfold preSave at hps
      cases hds : dateStep m (titleStep m doc) with
      | error e => rw [hds] at hps; exact absurd hps (by simp [Except.bind])
      | ok d₁ =>
        rw [hds] at hps
        simp only [Except.bind] at hps
        have htime : d₁.time = doc.time :=
          (dateStep_time hds).trans (titleStep_time m doc)
        unfold timeStep at hps
        rw [if_pos ht, htime, if_pos hok] at hps
        injection hps with hps
        subst hps
        exact htime
  · intro hbad
    have hts : timeStep m doc = .error "Time must be in HH:MM format".toList := by
      unfold timeStep
      rw [if_pos ht, if_neg (by simp [hbad])]
    refine ⟨hts, ?_, ?_⟩
    · intro doc' hps
      unfold preSave at hps
      cases hds : dateStep m (titleStep m doc) with
      | error e => rw [hds] at hps; exact absurd hps (by simp [Except.bind])
      | ok d₁ =>
        rw [hds] at hps
        simp only [Except.bind] at hps
        have htime : d₁.time = doc.time :=
          (dateStep_time hds).trans (titleStep_time m doc)
        unfold timeStep at hps
        rw [if_pos ht, htime, if_neg (by simp [hbad])] at hps
        exact absurd hps (by simp)
    · intro doc₁ hds
      unfold preSave
      rw [hds]
      simp only [Except.bind]
      have htime : doc₁.time = doc.time :=
        (dateStep_time hds).trans (titleStep_time m doc)
      unfold timeStep
      rw [if_pos ht, htime, if_neg (by simp [hbad])]

/-- Witness for C5 at the valid time `"10:30"`. -/
theorem time_validation_witness :
    (⟨false, false, true⟩ : ModifiedFlags).time = true ∧
    isTimeHHMM "10:30".toList = true ∧
    timeStep ⟨false, false, true⟩ ⟨[], [], [], "10:30".toList⟩ =
      .ok ⟨[], [], [], "10:30".toList⟩ :=
  ⟨rfl, by decide,
   ((time_validation ⟨[], [], [], "10:30".toList⟩ ⟨false, false, true⟩ rfl).1 (by decide)).1⟩

/-! ## C2 -/

lemma digitCh_toNat (n : Nat) : (digitCh n).toNat = 48 + n % 10 := by
  have h : n % 10 < 10 := Nat.mod_lt _ (by omega)
  unfold digitCh
  exact toNat_ofNat_of_lt _ (by omega)

lemma isDigitCh_digitCh (n : Nat) : isDigitCh (digitCh n) = true := by
  have h : n % 10 < 10 := Nat.mod_lt _ (by omega)
  simp only [isDigitCh, digitCh_toNat, Bool.and_eq_true, decide_eq_true_eq]
  omega

lemma digitVal_digitCh (n : Nat) : digitVal (digitCh n) = n % 10 := by
  simp only [digitVal, digitCh_toNat]
  omega

lemma daysInMonth_le (y m : Nat) : daysInMonth y m ≤ 31 := by
  unfold daysInMonth
  split
  all_goals try omega
  split <;> omega

lemma parseYMD_fields {s : List Char} {y mo d : Nat} {rest : List Char}
    (h : parseYMD s = some (y, mo, d, rest)) :
    y < 10000 ∧ mo < 100 ∧ d < 100 := by
  unfold parseYMD at h
  split at h
  · next y1 y2 y3 y4 r =>
    split at h
    · next hg =>
      simp only [Bool.and_eq_true, decide_eq_true_eq, isDigitCh] at hg
      split at h
      · next m1 m2 rest2 =>
        split at h
        · next hgm =>
          simp only [Bool.and_eq_true, decide_eq_true_eq, isDigitCh] at hgm
          split at h
          · next d1 d2 rest3 =>
            split at h
            · next hgd =>
              simp only [Bool.and_eq_true, decide_eq_true_eq, isDigitCh] at hgd
              simp only [Option.some.injEq, Prod.mk.injEq] at h
              obtain ⟨h1, h2, h3, h4⟩ := h
              simp only [digitVal] at h1 h2 h3
              omega
            · exact absurd h (by simp)
          · simp only [Option.some.injEq, Prod.mk.injEq] at h
            obtain ⟨h1, h2, h3, h4⟩ := h
            simp only [digitVal] at h1 h2
            omega
        · exact absurd h (by simp)
      · simp only [Option.some.injEq, Prod.mk.injEq] at h
        obtain ⟨h1, h2, h3, h4⟩ := h
        simp only [digitVal] at h1
        omega
    · exact absurd h (by simp)
  · exact absurd h (by simp)

lemma jsDateParse_bounds {s : List Char} {p : JsDateParts}
    (h : jsDateParse s = some p) :
    p.year < 10000 ∧ 1 ≤ p.month ∧ p.month ≤ 12 ∧ 1 ≤ p.day ∧
      p.day ≤ daysInMonth p.year p.month := by
  unfold jsDateParse at h
  split at h
  · exact absurd h (by simp)
  · next y mo d rest hp =>
    split at h
    · next hcond =>
      have hy := (parseYMD_fields hp).1
      split at h
      · injection h with h
        subst h
        exact ⟨hy, hcond.1, hcond.2.1, hcond.2.2.1, hcond.2.2.2⟩
      · next restT =>
        split at h
        · exact absurd h (by simp)
        · injection h with h
          subst h
          exact ⟨hy, hcond.1, hcond.2.1, hcond.2.2.1, hcond.2.2.2⟩
      · exact absurd h (by simp)
    · exact absurd h (by simp)

lemma jsDateParse_toISO {y mo d : Nat} (hy : y < 10000)
    (hmo1 : 1 ≤ mo) (hmo2 : mo ≤ 12) (hd1 : 1 ≤ d) (hd2 : d ≤ daysInMonth y mo) :
    jsDateParse (toISODateString ((y : Int), mo, d)) = some ⟨y, mo, d, 0, 0⟩ := by
  have h0 : toISODateString ((y : Int), mo, d) =
      [digitCh (y / 1000), digitCh (y / 100), digitCh (y / 10), digitCh y, '-',
       digitCh (mo / 10), digitCh mo, '-', digitCh (d / 10), digitCh d] := by
    simp only [toISODateString]
    rw [if_pos ⟨Int.natCast_nonneg y, by exact_mod_cast Nat.le_of_lt_succ hy⟩,
      Int.toNat_natCast]
    rfl
  have e1 : y / 100 / 10 = y / 1000 := by
    rw [Nat.div_div_eq_div_mul]
  have e2 : y / 10 / 10 = y / 100 := by
    rw [Nat.div_div_eq_div_mul]
  have hd31 : daysInMonth y mo ≤ 31 := daysInMonth_le y mo
  have hy' : ((y / 1000 % 10 * 10 + y / 100 % 10) * 10 + y / 10 % 10) * 10 + y % 10 = y := by
    omega
  have hmo' : mo / 10 % 10 * 10 + mo % 10 = mo := by omega
  have hd' : d / 10 % 10 * 10 + d % 10 = d := by omega
  have hp : parseYMD (toISODateString ((y : Int), mo, d)) = some (y, mo, d, []) := by
    rw [h0]
    simp only [parseYMD, isDigitCh_digitCh, digitVal_digitCh, Bool.and_self,
      Bool.true_and, Bool.and_true, if_true]
    rw [hy', hmo', hd']
  unfold jsDateParse
  rw [hp]
  show (if 1 ≤ mo ∧ mo ≤ 12 ∧ 1 ≤ d ∧ d ≤ daysInMonth y mo then
      some (⟨y, mo, d, 0, 0⟩ : JsDateParts) else none) = some ⟨y, mo, d, 0, 0⟩
  rw [if_pos ⟨hmo1, hmo2, hd1, hd2⟩]

/-- C2 (amended): for every modified date field — the runtime's Date
modelled on the Date Time String Format fragment described at
`jsDateParse` — an unparsable string makes the hook abort with
"Invalid date format" (the document is not persisted); a parsable
string makes the date step rewrite the field in place to the
`YYYY-MM-DD` rendering of the UTC calendar date of the parsed
instant, and any successfully saved document carries that rendering.
For date-only input (time and offset both zero) the stored rendering
denotes the input's own calendar date and reparses to it; offset
date-times can store an adjacent calendar date instead. -/
theorem date_normalization (doc : EventDoc) (m : ModifiedFlags) (hd : m.date = true) :
    (jsDateParse doc.date = none →
       preSave m doc = .error "Invalid date format".toList) ∧
    (∀ p, jsDateParse doc.date = some p →
       dateStep m (titleStep m doc) =
         .ok { titleStep m doc with date := toISODateString (utcDateOf p) } ∧
       (∀ doc', preSave m doc = .ok doc' → doc'.date = toISODateString (utcDateOf p)) ∧
       (p.timeMs = 0 → p.offsetMs = 0 →
          utcDateOf p = ((p.year : Int), p.month, p.day) ∧
          jsDateParse (toISODateString (utcDateOf p)) =
            some ⟨p.year, p.month, p.day, 0, 0⟩)) := by
  constructor
  · intro hn
    have hds : dateStep m (titleStep m doc) = .error "Invalid date format".toList := by
      unfold dateStep
      rw [if_pos hd, titleStep_date, hn]
    unfold preSave
    rw [hds]
    rfl
  · intro p hp
    have hds : dateStep m (titleStep m doc) =
        .ok { titleStep m doc with date := toISODateString (utcDateOf p) } := by
      unfold dateStep
      rw [if_pos hd, titleStep_date, hp]
    refine ⟨hds, ?_, ?_⟩
    · intro doc' hok
      unfold preSave at hok
      rw [hds] at hok
      simp only [Except.bind] at hok
      unfold timeStep at hok
      split at hok
      · split at hok
        · injection hok with hok
          subst hok
          rfl
        · exact absurd hok (by simp)
      · injection hok with hok
        subst hok
        rfl
    · intro hms hos
      have hu : utcDateOf p = ((p.year : Int), p.month, p.day) := by
        unfold utcDateOf
        rw [hms, hos]
        norm_num
      obtain ⟨hy, hmo1, hmo2, hd1, hd2⟩ := jsDateParse_bounds hp
      exact ⟨hu, by rw [hu]; exact jsDateParse_toISO hy hmo1 hmo2 hd1 hd2⟩

/-- Witness for C2 (amended) at the date-only input `"2025-03-07"`. -/
theorem date_normalization_witness :
    (⟨false, true, false⟩ : ModifiedFlags).date = true ∧
    jsDateParse "2025-03-07".toList = some ⟨2025, 3, 7, 0, 0⟩ ∧
    dateStep ⟨false, true, false⟩
        (titleStep ⟨false, true, false⟩ ⟨[], [], "2025-03-07".toList, []⟩) =
      .ok ⟨[], [], toISODateString (utcDateOf ⟨2025, 3, 7, 0, 0⟩), []⟩ :=
  ⟨rfl, by decide,
   ((date_normalization ⟨[], [], "2025-03-07".toList, []⟩ ⟨false, true, false⟩ rfl).2
     ⟨2025, 3, 7, 0, 0⟩ (by decide)).1⟩

/-- C2 (counterexample to the claim as stated): the spec-format input
`"2025-03-07T20:00:00-10:00"` parses (its written calendar date is
2025-03-07), the hook persists the write — so restricting the model
to date-only strings was wrong in the abort direction too — and the
stored field is `"2025-03-08"`, a different calendar date than the
input's. -/
theorem date_same_calendar_cex :
    (jsDateParse "2025-03-07T20:00:00-10:00".toList).map
        (fun p => (p.year, p.month, p.day)) = some (2025, 3, 7) ∧
    preSave ⟨false, true, false⟩ ⟨[], [], "2025-03-07T20:00:00-10:00".toList, []⟩ =
      .ok ⟨[], [], "2025-03-08".toList, []⟩ ∧
    (jsDateParse "2025-03-08".toList).map (fun p => (p.year, p.month, p.day)) =
      some (2025, 3, 8) ∧
    ((2025, 3, 8) : Nat × Nat × Nat) ≠ (2025, 3, 7) := by decide

/-! ## Helper for nonempty lists -/

lemma isEmpty_false_of_ne_nil {α} {l : List α} (h : l ≠ []) : l.isEmpty = false := by
  cases l with
  | nil => exact absurd rfl h
  | cons a t => rfl

/-! ## C3 -/

/-- C3 (amended): `connectToDatabase` evaluates the configuration
check on every invocation, before consulting the cached-connection
state — even with a cached connection, a falsy `MONGODB_URI` makes it
throw the configuration error, while with the configuration present a
cached connection short-circuits the connect attempt. -/
theorem connect_config_checked_every_call (st : ProcState) (cr : Except Thrown Unit)
    (hc : st.mongooseConn = true) :
    (uriFalsy st = true → connectToDatabase st cr = .error mongoUriError) ∧
    (uriFalsy st = false → connectToDatabase st cr = .ok ()) := by
  constructor
  · intro h
    unfold connectToDatabase
    rw [if_pos (by simp [h])]
  · intro h
    unfold connectToDatabase
    rw [if_neg (by simp [h]), if_pos (by simp [hc])]

/-- Witness for C3 (amended) at the cached-but-unconfigured state. -/
theorem connect_config_checked_every_call_witness :
    (⟨none, true⟩ : ProcState).mongooseConn = true ∧
    uriFalsy ⟨none, true⟩ = true ∧
    connectToDatabase ⟨none, true⟩ (.ok ()) = .error mongoUriError :=
  ⟨rfl, rfl, (connect_config_checked_every_call ⟨none, true⟩ (.ok ()) rfl).1 rfl⟩

/-- C3 (counterexample to the claim as stated): with the cached
"already connected" state set and `MONGODB_URI` absent,
`connectToDatabase` still throws the configuration error — the cache
does not skip the configuration check — and a request with a valid
slug surfaces the 500 "Database configuration error" response even
though a cached connection exists. -/
theorem config_recheck_after_cached_cex :
    connectToDatabase ⟨none, true⟩ (.ok ()) = .error mongoUriError ∧
    GET (.str "my-event-2025".toList) ⟨none, true⟩ (.ok ()) (fun _ => .notFound) =
      ⟨500, .errorMsg "Database configuration error".toList⟩ := by decide

/-! ## C6 -/

/-- C6: a missing, non-string, or empty/whitespace-only slug
parameter always yields status 400 with body
`error: "Invalid slug parameter"`. -/
theorem shape_invalid_400 (p : SlugParam) (st : ProcState)
    (cr : Except Thrown Unit) (q : List Char → QueryOutcome)
    (h : p = .missing ∨ (∃ b, p = .notAString b) ∨ (∃ s, p = .str s ∧ jsTrim s = [])) :
    GET p st cr q = ⟨400, .errorMsg "Invalid slug parameter".toList⟩ := by
  rcases h with h | ⟨b, h⟩ | ⟨s, h, hs⟩
  · subst h; rfl
  · subst h; rfl
  · subst h
    simp only [GET, getBody]
    rw [if_pos (by simp [hs])]

/-- Witness for C6 at the whitespace-only slug `"   "`. -/
theorem shape_invalid_400_witness :
    jsTrim "   ".toList = ([] : List Char) ∧
    GET (.str "   ".toList) ⟨some "mongo".toList, false⟩ (.ok ()) (fun _ => .notFound) =
      ⟨400, .errorMsg "Invalid slug parameter".toList⟩ :=
  ⟨by decide,
   shape_invalid_400 (.str "   ".toList) ⟨some "mongo".toList, false⟩ (.ok ())
     (fun _ => .notFound) (Or.inr (Or.inr ⟨"   ".toList, rfl, by decide⟩))⟩

/-! ## C7 -/

/-- C7 (amended): every slug that does not trim to the empty string
and whose trimmed, lowercased form fails `^[a-z0-9-]+$` yields status
400 with body `error: "Slug contains invalid characters"`, whatever
record could exist. -/
theorem charset_invalid_400 (s : List Char) (st : ProcState)
    (cr : Except Thrown Unit) (q : List Char → QueryOutcome)
    (h1 : jsTrim s ≠ []) (h2 : slugPatternOk (sanitizeSlug s) = false) :
    GET (.str s) st cr q = ⟨400, .errorMsg "Slug contains invalid characters".toList⟩ := by
  have hne : s ≠ [] := by
    intro he
    exact h1 (by rw [he]; rfl)
  simp only [GET, getBody]
  rw [if_neg (by simp [isEmpty_false_of_ne_nil hne, isEmpty_false_of_ne_nil h1]),
    if_pos (by simp [h2])]

/-- Witness for C7 (amended) at the slug `"Hello_World!"`. -/
theorem charset_invalid_400_witness :
    jsTrim "Hello_World!".toList ≠ ([] : List Char) ∧
    slugPatternOk (sanitizeSlug "Hello_World!".toList) = false ∧
    GET (.str "Hello_World!".toList) ⟨some "mongo".toList, false⟩ (.ok ())
        (fun _ => .notFound) =
      ⟨400, .errorMsg "Slug contains invalid characters".toList⟩ :=
  ⟨by decide, by decide,
   charset_invalid_400 "Hello_World!".toList ⟨some "mongo".toList, false⟩ (.ok ())
     (fun _ => .notFound) (by decide) (by decide)⟩

/-- C7 (counterexample to the claim as stated): the non-empty slug
`"   "` trims and lowercases to the empty string, which fails
`^[a-z0-9-]+$`, yet the handler answers with the shape-validation
message "Invalid slug parameter", not the claimed charset message. -/
theorem charset_claim_whitespace_cex :
    "   ".toList ≠ ([] : List Char) ∧
    slugPatternOk (sanitizeSlug "   ".toList) = false ∧
    GET (.str "   ".toList) ⟨none, false⟩ (.ok ()) (fun _ => .notFound) =
      ⟨400, .errorMsg "Invalid slug parameter".toList⟩ ∧
    (⟨400, .errorMsg "Invalid slug parameter".toList⟩ : Response) ≠
      ⟨400, .errorMsg "Slug contains invalid characters".toList⟩ := by decide

/-! ## C9 -/

/-- The request fails the handler's shape or charset validation. -/
def requestValidationFails (p : SlugParam) : Bool :=
  match p with
  | .missing => true
  | .notAString _ => true
  | .str s => s.isEmpty || (jsTrim s).isEmpty || !slugPatternOk (sanitizeSlug s)

/-- C9: for a slug failing shape or charset validation, the response
is a 400 computed before any storage-connection or configuration
access — two runs differing only in the connection configuration,
connect outcome, or storage state produce the identical response. -/
theorem invalid_slug_ignores_db (p : SlugParam)
    (h : requestValidationFails p = true)
    (st₁ st₂ : ProcState) (cr₁ cr₂ : Except Thrown Unit)
    (q₁ q₂ : List Char → QueryOutcome) :
    GET p st₁ cr₁ q₁ = GET p st₂ cr₂ q₂ ∧ (GET p st₁ cr₁ q₁).status = 400 := by
  cases p with
  | missing => exact ⟨rfl, rfl⟩
  | notAString b => exact ⟨rfl, rfl⟩
  | str s =>
    simp only [requestValidationFails] at h
    by_cases hc : (s.isEmpty || (jsTrim s).isEmpty) = true
    · have e : ∀ (st : ProcState) (cr : Except Thrown Unit) (q : List Char → QueryOutcome),
          GET (.str s) st cr q = ⟨400, .errorMsg "Invalid slug parameter".toList⟩ := by
        intro st cr q
        simp only [GET, getBody]
        rw [if_pos hc]
      rw [e st₁ cr₁ q₁, e st₂ cr₂ q₂]
      exact ⟨rfl, rfl⟩
    · have hpat : slugPatternOk (sanitizeSlug s) = false := by
        revert h hc
        cases s.isEmpty <;> cases (jsTrim s).isEmpty <;>
          cases slugPatternOk (sanitizeSlug s) <;> simp
      have e : ∀ (st : ProcState) (cr : Except Thrown Unit) (q : List Char → QueryOutcome),
          GET (.str s) st cr q = ⟨400, .errorMsg "Slug contains invalid characters".toList⟩ := by
        intro st cr q
        simp only [GET, getBody]
        rw [if_neg hc, if_pos (by simp [hpat])]
      rw [e st₁ cr₁ q₁, e st₂ cr₂ q₂]
      exact ⟨rfl, rfl⟩

/-- Witness for C9: the invalid slug `"Hello World"` gets the same
400 response with no configuration and a failing connect as with a
configured, cached connection and a matching record. -/
theorem invalid_slug_ignores_db_witness :
    requestValidationFails (.str "Hello World".toList) = true ∧
    (GET (.str "Hello World".toList) ⟨none, false⟩ (.error .nonError) (fun _ => .notFound) =
       GET (.str "Hello World".toList) ⟨some "mongo".toList, true⟩ (.ok ())
         (fun _ => .found ⟨[], [], [], []⟩) ∧
     (GET (.str "Hello World".toList) ⟨none, false⟩ (.error .nonError)
        (fun _ => .notFound)).status = 400) :=
  ⟨by decide,
   invalid_slug_ignores_db (.str "Hello World".toList) (by decide)
     ⟨none, false⟩ ⟨some "mongo".toList, true⟩ (.error .nonError) (.ok ())
     (fun _ => .notFound) (fun _ => .found ⟨[], [], [], []⟩)⟩

/-! ## C4 -/

/-- C4: with a slug passing validation and an established connection,
a query finding no record yields 404 with body
`error: "Event not found"` and no data payload, while a query finding
a record yields 200 with `success: true` and the record as data. -/
theorem query_result_responses (s : List Char) (st : ProcState)
    (cr : Except Thrown Unit) (q : List Char → QueryOutcome) (ev : EventDoc)
    (hpat : slugPatternOk (sanitizeSlug s) = true)
    (hconn : connectToDatabase st cr = .ok ()) :
    (q (sanitizeSlug s) = .notFound →
       GET (.str s) st cr q = ⟨404, .errorMsg "Event not found".toList⟩) ∧
    (q (sanitizeSlug s) = .found ev →
       GET (.str s) st cr q = ⟨200, .success ev⟩) := by
  have hsan : sanitizeSlug s ≠ [] := by
    intro he
    rw [slugPatternOk, he] at hpat
    simp at hpat
  have htr : jsTrim s ≠ [] := by
    intro he
    exact hsan (by unfold sanitizeSlug; rw [he]; rfl)
  have hne : s ≠ [] := by
    intro he
    exact htr (by rw [he]; rfl)
  have hred : GET (.str s) st cr q =
      (match q (sanitizeSlug s) with
       | .raise t => mapCaught t
       | .notFound => ⟨404, .errorMsg "Event not found".toList⟩
       | .found e => ⟨200, .success e⟩) := by
    simp only [GET, getBody]
    rw [if_neg (by simp [isEmpty_false_of_ne_nil hne, isEmpty_false_of_ne_nil htr]),
      if_neg (by simp [hpat]), hconn]
    cases q (sanitizeSlug s) <;> rfl
  constructor
  · intro hq
    rw [hred, hq]
  · intro hq
    rw [hred, hq]

/-- Witness for C4 at the slug `"my-event-2025"` with a matching
record. -/
theorem query_result_responses_witness :
    slugPatternOk (sanitizeSlug "my-event-2025".toList) = true ∧
    connectToDatabase ⟨some "mongo".toList, false⟩ (.ok ()) = .ok () ∧
    GET (.str "my-event-2025".toList) ⟨some "mongo".toList, false⟩ (.ok ())
        (fun _ => .found ⟨"T".toList, "my-event-2025".toList, [], []⟩) =
      ⟨200, .success ⟨"T".toList, "my-event-2025".toList, [], []⟩⟩ :=
  ⟨by decide, by decide,
   (query_result_responses "my-event-2025".toList ⟨some "mongo".toList, false⟩ (.ok ())
     (fun _ => .found ⟨"T".toList, "my-event-2025".toList, [], []⟩)
     ⟨"T".toList, "my-event-2025".toList, [], []⟩ (by decide) (by decide)).2 rfl⟩

/-! ## C8 -/

/-- C8 (amended): every value thrown inside the try-block is caught
and converted to exactly one JSON error response with a fixed status,
with the configuration-message test taking priority: an Error whose
message contains "MONGODB_URI" maps to 500 "Database configuration
error" (even if its name is CastError or ValidationError); otherwise
a CastError or ValidationError maps to 400 "Invalid request
parameters"; every other thrown value maps to 500 "Internal server
error". -/
theorem caught_error_mapping (p : SlugParam) (st : ProcState) (cr : Except Thrown Unit)
    (q : List Char → QueryOutcome) (t : Thrown)
    (h : getBody p st cr q = .error t) :
    GET p st cr q = mapCaught t ∧
    (∀ name msg, t = .errObj name msg →
       (containsSub "MONGODB_URI".toList msg = true →
          mapCaught t = ⟨500, .errorMsg "Database configuration error".toList⟩) ∧
       (containsSub "MONGODB_URI".toList msg = false →
          (name = "CastError".toList ∨ name = "ValidationError".toList) →
          mapCaught t = ⟨400, .errorMsg "Invalid request parameters".toList⟩) ∧
       (containsSub "MONGODB_URI".toList msg = false →
          name ≠ "CastError".toList → name ≠ "ValidationError".toList →
          mapCaught t = ⟨500, .errorMsg "Internal server error".toList⟩)) ∧
    (t = .nonError → mapCaught t = ⟨500, .errorMsg "Internal server error".toList⟩) := by
  refine ⟨?_, ?_, ?_⟩
  · unfold GET
    rw [h]
  · intro name msg ht
    subst ht
    refine ⟨?_, ?_, ?_⟩
    · intro hin
      simp only [mapCaught]
      rw [if_pos (show containsSub "MONGODB_URI".toList msg = true from hin)]
    · intro hni hcast
      simp only [mapCaught]
      rw [if_neg (show ¬containsSub "MONGODB_URI".toList msg = true from
          fun hh => by rw [hni] at hh; exact Bool.noConfusion hh),
        if_pos hcast]
    · intro hni hn1 hn2
      simp only [mapCaught]
      rw [if_neg (show ¬containsSub "MONGODB_URI".toList msg = true from
          fun hh => by rw [hni] at hh; exact Bool.noConfusion hh),
        if_neg (by rw [not_or]; exact ⟨hn1, hn2⟩)]
  · intro ht
    subst ht
    rfl

/-- Witness for C8 (amended): a CastError raised by the query reaches
the catch block and is mapped to 400 "Invalid request parameters". -/
theorem caught_error_mapping_witness :
    getBody (.str "my-event-2025".toList) ⟨some "mongo".toList, true⟩ (.ok ())
        (fun _ => .raise (.errObj "CastError".toList "Cast to string failed".toList)) =
      .error (.errObj "CastError".toList "Cast to string failed".toList) ∧
    GET (.str "my-event-2025".toList) ⟨some "mongo".toList, true⟩ (.ok ())
        (fun _ => .raise (.errObj "CastError".toList "Cast to string failed".toList)) =
      ⟨400, .errorMsg "Invalid request parameters".toList⟩ := by
  refine ⟨by decide, ?_⟩
  have h := caught_error_mapping (.str "my-event-2025".toList) ⟨some "mongo".toList, true⟩
    (.ok ()) (fun _ => .raise (.errObj "CastError".toList "Cast to string failed".toList))
    (.errObj "CastError".toList "Cast to string failed".toList) (by decide)
  exact h.1.trans (((h.2.1 _ _ rfl).2.1 (by decide)) (Or.inl rfl))

/-- C8 (counterexample to the claim as stated): a storage cast-type
error whose message happens to contain "MONGODB_URI" is mapped by the
catch block to 500 "Database configuration error", not to the claimed
400 "Invalid request parameters", because the message test runs before
the error-name test. -/
theorem cast_error_priority_cex :
    GET (.str "my-event-2025".toList) ⟨some "mongo".toList, true⟩ (.ok ())
        (fun _ => .raise (.errObj "CastError".toList "CastError: MONGODB_URI".toList)) =
      ⟨500, .errorMsg "Database configuration error".toList⟩ ∧
    (⟨500, .errorMsg "Database configuration error".toList⟩ : Response) ≠
      ⟨400, .errorMsg "Invalid request parameters".toList⟩ := by decide

end DevEvents
